import Mathlib

/-!
# CloudSim (Python) — verification of the spec's claims

A shallow embedding of the VirtualCloud-Simulation repository
(`cloudsim/models.py`, `cloudsim/orchestrator.py`, `cloudsim/controller.py`)
together with proofs settling the claims of the natural-language spec.

Conventions of the embedding:
* Python dicts (which preserve insertion order) are association lists
  `List (String × α)`; `dictSet` replaces in place or appends, exactly as
  a Python dict assignment does, and `dictGet?` is `d.get(k)`.
* Python `float` timestamps only ever flow through comparisons and
  assignments here, so time is modelled by `Int`.
* Network and clock effects are parameters: the probe result is an oracle
  `String → Int → Bool` (host, port), and `time.time()` is an explicit
  `now` argument.
-/

namespace CloudSim

/-- `TransferStatus` from `models.py`. -/
inductive TransferStatus
  | pending
  | inProgress
  | completed
  | failed
deriving DecidableEq, Repr

/-- `NodeCapacity` from `models.py`. -/
structure NodeCapacity where
  cpu : Int
  memory_gb : Int
  storage_bytes : Int
  bandwidth_bps : Int
deriving DecidableEq, Repr

/-- `NodeInfo` from `models.py`: `registered_at`/`last_seen` default to the
creation time, passed in explicitly; `active` defaults to `True`. -/
structure NodeInfo where
  node_id : String
  host : String
  tcp_port : Int
  udp_port : Int
  capacity : NodeCapacity
  registered_at : Int
  last_seen : Int
  active : Bool := true
deriving DecidableEq, Repr

/-- `FileChunk` from `models.py`. The checksum in the source is
`hashlib.md5(f"{file_id}-{i}").hexdigest()` — an external library hash of
that string, used purely as a placeholder identifier; the embedding keeps
the hashed string itself, which determines the digest. `stored_node` is
written by every delivering thread (last writer wins); no claim depends on
its final value. -/
structure FileChunk where
  chunk_id : Nat
  size : Nat
  checksum : String
  status : TransferStatus := .pending
  stored_node : Option String := none
deriving DecidableEq, Repr

/-- `FileTransfer` from `models.py` (the fields the claims touch). -/
structure FileTransfer where
  file_id : String
  file_name : String
  total_size : Nat
  chunks : List FileChunk
  status : TransferStatus := .pending
deriving DecidableEq, Repr

/-- `FileTransfer.is_complete` from `models.py`:
`all(c.status == TransferStatus.COMPLETED for c in self.chunks)`.
Note it reads the single shared per-chunk `status` field. -/
def FileTransfer.isComplete (t : FileTransfer) : Bool :=
  t.chunks.all (fun c => c.status == TransferStatus.completed)

/-! ## Chunking (`orchestrator.py`, `_calc_chunk_size` / `_gen_chunks`) -/

/-- `_calc_chunk_size` from `orchestrator.py`. -/
def calcChunkSize (fileSize : Nat) : Nat :=
  if fileSize < 10 * 1024 * 1024 then 512 * 1024
  else if fileSize < 100 * 1024 * 1024 then 2 * 1024 * 1024
  else 10 * 1024 * 1024

/-- `_gen_chunks` from `orchestrator.py`: `n = (file_size + size - 1) // size`
chunks, chunk `i` of size `min(size, file_size - i * size)`. -/
def genChunks (fileId : String) (fileSize : Nat) : List FileChunk :=
  let size := calcChunkSize fileSize
  (List.range ((fileSize + size - 1) / size)).map (fun i =>
    { chunk_id := i
      size := min size (fileSize - i * size)
      checksum := fileId ++ "-" ++ toString i })

theorem calcChunkSize_pos (fileSize : Nat) : 0 < calcChunkSize fileSize := by
  unfold calcChunkSize
  split <;> [decide; skip]
  split <;> decide

theorem genChunks_length (fileId : String) (fileSize : Nat) :
    (genChunks fileId fileSize).length =
      (fileSize + calcChunkSize fileSize - 1) / calcChunkSize fileSize := by
  simp [genChunks]

/-- `(a + b - 1) / b` is at least the true quotient: `a ≤ ((a+b-1)/b) * b`. -/
theorem le_ceil_mul (a b : Nat) (hb : 0 < b) : a ≤ ((a + b - 1) / b) * b := by
  have h1 := Nat.div_add_mod (a + b - 1) b
  have h2 : (a + b - 1) % b < b := Nat.mod_lt _ hb
  rw [Nat.mul_comm]
  generalize hq : b * ((a + b - 1) / b) = q at *
  omega

/-- `(a + b - 1) / b` is the least `n` with `a ≤ n * b`. -/
theorem ceil_le_of_le_mul (a b n : Nat) (hb : 0 < b) (h : a ≤ n * b) :
    (a + b - 1) / b ≤ n := by
  have h1 : a + b - 1 < (n + 1) * b := by
    have : (n + 1) * b = n * b + b := by ring
    omega
  have := (Nat.div_lt_iff_lt_mul hb).mpr h1
  omega

/-! ## Python dicts as association lists -/

/-- `d[k] = v` on a Python dict: replaces the value in place when the key is
present (insertion order kept), appends otherwise. -/
def dictSet (m : List (String × α)) (k : String) (v : α) : List (String × α) :=
  match m with
  | [] => [(k, v)]
  | (k', v') :: rest => if k' = k then (k, v) :: rest else (k', v') :: dictSet rest k v

/-- `d.get(k)` on a Python dict. -/
def dictGet? (m : List (String × α)) (k : String) : Option α :=
  match m with
  | [] => none
  | (k', v') :: rest => if k' = k then some v' else dictGet? rest k

/-- `d.get(k, default)` on a Python dict. -/
def dictGetD (m : List (String × α)) (k : String) (d : α) : α :=
  (dictGet? m k).getD d

theorem dictGet?_dictSet_self (m : List (String × α)) (k : String) (v : α) :
    dictGet? (dictSet m k v) k = some v := by
  induction m with
  | nil => simp [dictSet, dictGet?]
  | cons kv rest ih =>
    obtain ⟨k', v'⟩ := kv
    by_cases h : k' = k <;> simp [dictSet, dictGet?, h, ih]

theorem dictGet?_dictSet_ne (m : List (String × α)) (k k' : String) (v : α)
    (h : k' ≠ k) : dictGet? (dictSet m k v) k' = dictGet? m k' := by
  have h' : k ≠ k' := Ne.symm h
  induction m with
  | nil => simp [dictSet, dictGet?, h']
  | cons kv rest ih =>
    obtain ⟨k₀, v₀⟩ := kv
    by_cases h₀ : k₀ = k
    · subst h₀
      simp [dictSet, dictGet?, h']
    · simp [dictSet, dictGet?, h₀, ih]

theorem dictSet_keys (m : List (String × α)) (k : String) (v : α) :
    (dictSet m k v).map Prod.fst =
      if k ∈ m.map Prod.fst then m.map Prod.fst else m.map Prod.fst ++ [k] := by
  induction m with
  | nil => simp [dictSet]
  | cons kv rest ih =>
    obtain ⟨k₀, v₀⟩ := kv
    by_cases h : k₀ = k
    · subst h; simp [dictSet]
    · simp only [dictSet, if_neg h, List.map_cons, List.mem_cons]
      rw [ih]
      by_cases hk : k ∈ rest.map Prod.fst
      · simp [hk]
      · simp [hk, Ne.symm h]

theorem dictSet_keys_nodup (m : List (String × α)) (k : String) (v : α)
    (h : (m.map Prod.fst).Nodup) : ((dictSet m k v).map Prod.fst).Nodup := by
  rw [dictSet_keys]
  by_cases hk : k ∈ m.map Prod.fst
  · simpa [hk] using h
  · rw [if_neg hk, List.nodup_append]
    refine ⟨h, List.nodup_singleton k, ?_⟩
    intro a ha hb
    rw [List.mem_singleton] at hb
    subst hb
    exact hk ha

theorem dictSet_dictSet_self (m : List (String × α)) (k : String) (v w : α) :
    dictSet (dictSet m k v) k w = dictSet m k w := by
  induction m with
  | nil => simp [dictSet]
  | cons kv rest ih =>
    obtain ⟨k₀, v₀⟩ := kv
    by_cases h : k₀ = k <;> simp [dictSet, h, ih]

/-- Writing back the value already stored under a key changes nothing. -/
theorem dictSet_eq_of_get (m : List (String × α)) (k : String) (v : α)
    (h : dictGet? m k = some v) : dictSet m k v = m := by
  induction m with
  | nil => simp [dictGet?] at h
  | cons kv rest ih =>
    obtain ⟨k₀, v₀⟩ := kv
    by_cases h₀ : k₀ = k
    · subst h₀
      simp only [dictGet?, if_true, eq_self_iff_true, Option.some.injEq] at h
      subst h
      simp [dictSet]
    · simp only [dictGet?, if_neg h₀] at h
      simp [dictSet, h₀, ih h]

/-- A key that `dictGet?` finds splits the list at the key's (first, and under
`Nodup` only) occurrence. -/
theorem dictGet?_eq_some_split (m : List (String × α)) (k : String) (v : α)
    (h : dictGet? m k = some v) :
    ∃ l₁ l₂, m = l₁ ++ (k, v) :: l₂ ∧ k ∉ l₁.map Prod.fst := by
  induction m with
  | nil => simp [dictGet?] at h
  | cons kv rest ih =>
    obtain ⟨k₀, v₀⟩ := kv
    by_cases h₀ : k₀ = k
    · subst h₀
      simp [dictGet?] at h
      exact ⟨[], rest, by simp [h]⟩
    · simp [dictGet?, h₀] at h
      obtain ⟨l₁, l₂, hm, hk⟩ := ih h
      exact ⟨(k₀, v₀) :: l₁, l₂, by simp [hm], by simp [hk, Ne.symm h₀]⟩

/-! ## Reservation ledger (`orchestrator.py`, `_reserved`)

`initiate_transfer` reserves `file_size` against every selected target:
`self._reserved[nid] = self._reserved.get(nid, 0) + file_size`; the
`finally:` block of `_execute` subtracts the same amount per target. -/

/-- The reservation loop of `Orchestrator.initiate_transfer` (lines 71–72). -/
def reserveTargets (led : List (String × Int)) (targets : List String)
    (size : Int) : List (String × Int) :=
  targets.foldl (fun l nid => dictSet l nid (dictGetD l nid 0 + size)) led

/-- The release loop in the `finally:` block of `Orchestrator._execute`
(lines 92–94). -/
def releaseTargets (led : List (String × Int)) (targets : List String)
    (size : Int) : List (String × Int) :=
  targets.foldl (fun l nid => dictSet l nid (dictGetD l nid 0 - size)) led

/-- The ledger effect of `Orchestrator._execute`: the `try` body never touches
`_reserved`; the `finally:` block runs the release loop on every exit path —
normal completion, failure, and an exception escaping the body (modelled by
the `Except` outcome). -/
def executeLedger (led : List (String × Int)) (targets : List String)
    (size : Int) (body : Except String TransferStatus) : List (String × Int) :=
  match body with
  | .ok _ => releaseTargets led targets size
  | .error _ => releaseTargets led targets size

theorem reserveTargets_lookup (targets : List String) (led : List (String × Int))
    (size : Int) (nid : String) :
    dictGetD (reserveTargets led targets size) nid 0 =
      dictGetD led nid 0 + size * targets.count nid := by
  induction targets generalizing led with
  | nil => simp [reserveTargets]
  | cons t rest ih =>
    show dictGetD (reserveTargets (dictSet led t (dictGetD led t 0 + size)) rest size) nid 0 = _
    rw [ih]
    by_cases h : nid = t
    · subst h
      simp only [dictGetD, dictGet?_dictSet_self, Option.getD_some,
        List.count_cons_self]
      push_cast
      ring
    · simp only [dictGetD, dictGet?_dictSet_ne _ _ _ _ h,
        List.count_cons_of_ne h]

theorem releaseTargets_lookup (targets : List String) (led : List (String × Int))
    (size : Int) (nid : String) :
    dictGetD (releaseTargets led targets size) nid 0 =
      dictGetD led nid 0 - size * targets.count nid := by
  induction targets generalizing led with
  | nil => simp [releaseTargets]
  | cons t rest ih =>
    show dictGetD (releaseTargets (dictSet led t (dictGetD led t 0 - size)) rest size) nid 0 = _
    rw [ih]
    by_cases h : nid = t
    · subst h
      simp only [dictGetD, dictGet?_dictSet_self, Option.getD_some,
        List.count_cons_self]
      push_cast
      ring
    · simp only [dictGetD, dictGet?_dictSet_ne _ _ _ _ h,
        List.count_cons_of_ne h]

/-! ## Controller (`controller.py`, `NetworkController`)

The mutable state of a `NetworkController`: `_registered` and `_last_hb`
(both Python dicts keyed by `node_id`), and the two counters. The lock
`self._lock` linearizes the handlers; each handler is one atomic state
transformation here. -/

structure ControllerState where
  registered : List (String × NodeInfo)
  last_hb : List (String × Int)
  total_connections : Int := 0
  total_data_transferred : Int := 0
deriving DecidableEq, Repr

/-- A parsed request body, `json.loads` result: every field the handlers
read, each `Option` because `msg.get(...)` may find it absent. Numeric
fields arrive as numbers (`int(...)` of a JSON number). -/
structure ClientMsg where
  action : Option String := none
  node_id : Option String := none
  host : Option String := none
  tcp_port : Option Int := none
  udp_port : Option Int := none
  cap_cpu : Option Int := none
  cap_memory : Option Int := none
  cap_storage : Option Int := none
  cap_bandwidth : Option Int := none
deriving DecidableEq, Repr

/-- A controller response: `status` plus the optional payload fields the
handlers produce. -/
structure Response where
  status : String
  message : Option String := none
  nodes : Option (List NodeInfo) := none
deriving DecidableEq, Repr

/-- `NetworkController._handle_register` (lines 78–97). `node_id` is the
only required field (`msg["node_id"]` raises `KeyError` when absent, caught
by the blanket `except` and turned into an ERROR response); everything else
defaults. There is no validation: any present `node_id` — the empty string
included — and any integer capacity values — negative included — are stored
as given, in a freshly constructed `NodeInfo` whose `active` field takes its
dataclass default `True`. `registrationRecord` is the
`NodeInfo(node_id, host, tcp_port, udp_port, capacity)` constructed at
line 92, with `msg.get` defaults from lines 81–89. -/
def registrationRecord (selfPort : Int) (now : Int) (msg : ClientMsg)
    (nid : String) : NodeInfo :=
  { node_id := nid
    host := msg.host.getD "127.0.0.1"
    tcp_port := msg.tcp_port.getD selfPort
    udp_port := msg.udp_port.getD 0
    capacity :=
      { cpu := msg.cap_cpu.getD 4
        memory_gb := msg.cap_memory.getD 8
        storage_bytes := msg.cap_storage.getD (100 * 1024 * 1024 * 1024)
        bandwidth_bps := msg.cap_bandwidth.getD 1000000000 }
    registered_at := now
    last_seen := now }

/-- The full `_handle_register` step: store the fresh record under its
`node_id` and refresh `_last_hb`; an absent `node_id` field raises
`KeyError`, caught and returned as an ERROR response with the state
untouched. -/
def handleRegister (selfPort : Int) (now : Int) (msg : ClientMsg)
    (st : ControllerState) : Response × ControllerState :=
  match msg.node_id with
  | none => ({ status := "ERROR", message := some "KeyError: node_id" }, st)
  | some nid =>
    ({ status := "OK" },
      { st with
        registered := dictSet st.registered nid (registrationRecord selfPort now msg nid)
        last_hb := dictSet st.last_hb nid now })

/-- `NetworkController._handle_heartbeat` (lines 99–107):
`node_id = str(msg.get("node_id", ""))`; a registered node gets `_last_hb`
and `last_seen` refreshed and an ACK, an unknown one gets the error with the
state untouched. -/
def handleHeartbeat (now : Int) (msg : ClientMsg) (st : ControllerState) :
    Response × ControllerState :=
  let nid := msg.node_id.getD ""
  match dictGet? st.registered nid with
  | some info =>
      ({ status := "ACK" },
        { st with
          registered := dictSet st.registered nid { info with last_seen := now }
          last_hb := dictSet st.last_hb nid now })
  | none => ({ status := "ERROR", message := some "Node not registered" }, st)

/-- `NetworkController._handle_active` (lines 109–120): like heartbeat but
also sets `active = True`. -/
def handleActive (now : Int) (msg : ClientMsg) (st : ControllerState) :
    Response × ControllerState :=
  let nid := msg.node_id.getD ""
  match dictGet? st.registered nid with
  | some info =>
      ({ status := "ACK" },
        { st with
          registered :=
            dictSet st.registered nid { info with active := true, last_seen := now }
          last_hb := dictSet st.last_hb nid now })
  | none => ({ status := "ERROR", message := some "Node not registered" }, st)

/-- `NetworkController._handle_list_nodes` (lines 166–183): a snapshot of
every registered record, in dict (insertion) order. The wire form repeats
the record's fields; the embedding returns the records themselves. -/
def handleListNodes (st : ControllerState) : Response :=
  { status := "OK", nodes := some (st.registered.map Prod.snd) }

/-- What reaches `_handle_client` from one connection: no data at all, a
payload `json.loads` rejects, or a parsed message. -/
inductive RawRequest
  | empty
  | malformed
  | msg (m : ClientMsg)
deriving DecidableEq, Repr

/-- Python's `f"Unknown action: {action}"` when `action` is
`msg.get("action")`: `None` prints as `None`, a string prints bare. -/
def actionText : Option String → String
  | none => "None"
  | some a => a

/-- `NetworkController._handle_client` (lines 51–76) as one atomic step:
the first component is the response `sendall` writes back, `none` when the
handler sends nothing — which is what happens both for an empty read
(`if not data: return`) and for a malformed payload (`json.loads` raises
and the blanket `except Exception: pass` swallows the error without
replying). The dispatch mirrors the `if/elif` chain; STATS is read-only.
In every case the function returns — per-connection failures never escape
to the accept loop. -/
def handleClient (selfPort : Int) (now : Int) (req : RawRequest)
    (st : ControllerState) : Option Response × ControllerState :=
  match req with
  | .empty => (none, st)
  | .malformed => (none, st)
  | .msg m =>
    if m.action = some "REGISTER" then
      let (r, st') := handleRegister selfPort now m st
      (some r, st')
    else if m.action = some "HEARTBEAT" then
      let (r, st') := handleHeartbeat now m st
      (some r, st')
    else if m.action = some "ACTIVE_NOTIFICATION" then
      let (r, st') := handleActive now m st
      (some r, st')
    else if m.action = some "LIST_NODES" then
      (some (handleListNodes st), st)
    else if m.action = some "STATS" then
      (some { status := "OK" }, st)
    else
      (some { status := "ERROR",
              message := some ("Unknown action: " ++ actionText m.action) }, st)

/-! ## Liveness sweep (`controller.py`, `_heartbeat_monitor` / `_ping_udp`) -/

/-- `NetworkController._ping_udp` (lines 140–150): a nonpositive port short-
circuits to `False` without any network traffic; otherwise the UDP
round-trip's outcome (response containing `b"ALIVE"`, or any failure /
timeout) is the oracle's verdict. -/
def pingUdp (oracle : String → Int → Bool) (host : String) (port : Int) : Bool :=
  if port ≤ 0 then false else oracle host port

/-- One iteration of the sweep loop in `_heartbeat_monitor` (lines 127–138),
for the item `(node_id, last)` of the `list(self._last_hb.items())`
snapshot: a stale, still-registered node is probed; success refreshes
`_last_hb[node_id]` and sets `active = True`, failure flips an active node
to `active = False` (and leaves an already-inactive one alone). The record
is never deleted. -/
def sweepStep (oracle : String → Int → Bool) (now cutoff : Int)
    (st : ControllerState) (item : String × Int) : ControllerState :=
  if item.2 < cutoff then
    match dictGet? st.registered item.1 with
    | none => st
    | some info =>
      if pingUdp oracle info.host info.udp_port then
        { st with
          registered := dictSet st.registered item.1 { info with active := true }
          last_hb := dictSet st.last_hb item.1 now }
      else if info.active then
        { st with
          registered := dictSet st.registered item.1 { info with active := false } }
      else st
  else st

/-- One full cycle of `_heartbeat_monitor`'s loop body:
`cutoff = time.time() - HEARTBEAT_TIMEOUT_SECONDS` and a pass over the
snapshot of `_last_hb` items. -/
def heartbeatSweep (oracle : String → Int → Bool) (now : Int)
    (st : ControllerState) : ControllerState :=
  st.last_hb.foldl (sweepStep oracle now (now - 10)) st

/-! ## Placement (`orchestrator.py`, `_estimated_available` / `_select_targets`)

`_list_nodes` hands `_select_targets` the LIST_NODES payload, whose entries
carry exactly the fields of the registered `NodeInfo` records that selection
reads (`node_id`, `active`, `capacity.storage`, `capacity.bandwidth`), so the
embedding lets selection consume `NodeInfo` directly. -/

/-- `Orchestrator._estimated_available` (lines 50–54): declared storage minus
the ledger's reservation, clamped at zero (`free if free > 0 else 0`). -/
def estimatedAvailable (reserved : List (String × Int)) (n : NodeInfo) : Int :=
  let free := n.capacity.storage_bytes - dictGetD reserved n.node_id 0
  if 0 < free then free else 0

/-- The sort key of `_select_targets`:
`(self._estimated_available(n), int(n["capacity"]["bandwidth"]))`. -/
def selKey (reserved : List (String × Int)) (n : NodeInfo) : Int × Int :=
  (estimatedAvailable reserved n, n.capacity.bandwidth_bps)

/-- Python's lexicographic tuple comparison `a <= b` on pairs of ints. -/
def pairLE (a b : Int × Int) : Bool :=
  decide (a.1 < b.1) || (decide (a.1 = b.1) && decide (a.2 ≤ b.2))

/-- The comparison `suitable.sort(key=..., reverse=True)` sorts by: `a`
precedes `b` when `a`'s key is lexicographically ≥ `b`'s. CPython's sort is
stable, and `reverse=True` reverses the comparison while keeping equal-key
elements in their original order: the result is the stable sort by this
relation. -/
def selGE (reserved : List (String × Int)) (a b : NodeInfo) : Bool :=
  pairLE (selKey reserved b) (selKey reserved a)

/-- The filter-and-sort part of `Orchestrator._select_targets` (lines 56–59):
keep `active` nodes, keep those with `estimated_available >= file_size`,
stable-sort descending by `(estimated_available, bandwidth)`. A stable sort
for a total preorder is unique, so `List.insertionSort` (stable, see
`List.sublist_insertionSort`) embeds CPython's stable sort; the claim's
theorem proves the sortedness, permutation and stability properties that
pin this down. -/
def rankNodes (reserved : List (String × Int)) (nodes : List NodeInfo)
    (fileSize : Int) : List NodeInfo :=
  ((nodes.filter (fun n => n.active)).filter
      (fun n => fileSize ≤ estimatedAvailable reserved n)).insertionSort
    (fun a b => selGE reserved a b = true)

/-- `Orchestrator._select_targets` (lines 56–60): the ids of the top
`replication` ranked nodes (`suitable[:replication]`). -/
def selectTargets (reserved : List (String × Int)) (nodes : List NodeInfo)
    (replication : Nat) (fileSize : Int) : List String :=
  ((rankNodes reserved nodes fileSize).take replication).map NodeInfo.node_id

/-! ## Transfer execution (`orchestrator.py`, `_execute` / `_simulate_to_node`)

`_execute` starts one `_simulate_to_node` thread per target; each thread
walks `transfer.chunks` **in order**, sleeping for the simulated delay and
then writing `c.status = TransferStatus.COMPLETED` (and `c.stored_node`)
into the shared chunk object. `_execute` joins each thread with a 30 s
deadline and then reads `transfer.is_complete()` off those shared fields.

The run is abstracted by `progress : String → Nat`: how many chunks each
target's thread had finished when the joins returned. Delivery being
sequential, target `t` has completed exactly the chunks with
`chunk_id < progress t`; a target that finished within its deadline has
`progress t = transfer.chunks.length`. -/

/-- The shared chunk object after the joins: its single `status` field is
`COMPLETED` iff **some** target's thread got past it (each writer writes the
same status value, so the write order is immaterial; `stored_node`, the
nondeterministic last writer, is not modelled — no claim reads it). -/
def chunkAfterRun (targets : List String) (progress : String → Nat)
    (c : FileChunk) : FileChunk :=
  if targets.any (fun t => c.chunk_id < progress t) then
    { c with status := .completed }
  else c

/-- The final status `_execute` assigns (lines 84–91): `COMPLETED` when
`transfer.is_complete()` holds over the shared chunk fields after the joins,
`FAILED` otherwise. -/
def executeOutcome (t : FileTransfer) (targets : List String)
    (progress : String → Nat) : TransferStatus :=
  if FileTransfer.isComplete
      { t with chunks := t.chunks.map (chunkAfterRun targets progress) } then
    .completed
  else .failed

/-- The final status the claim (spec §3 invariant, §9 design note) requires:
`Completed` iff every chunk has been delivered to **every** target — i.e.
every target's thread finished all chunks within its deadline — and `Failed`
whenever some target did not finish. Stated from the claim's words, to be
compared with `executeOutcome`. -/
def claimedOutcome (t : FileTransfer) (targets : List String)
    (progress : String → Nat) : TransferStatus :=
  if targets.all (fun tgt => t.chunks.length ≤ progress tgt) then
    .completed
  else .failed

/-! ## Register sequences (for the upsert property) -/

/-- A sequence of REGISTER requests applied in order (each handled under the
controller lock, so the interleaving is a sequence). -/
def applyRegisters (selfPort now : Int) (msgs : List ClientMsg)
    (st : ControllerState) : ControllerState :=
  msgs.foldl (fun s m => (handleRegister selfPort now m s).2) st

/-! # The claims -/

/-! ### C1 — completion is tracked in a single shared per-chunk field -/

/-- A one-chunk transfer, as `initiate_transfer` builds it. -/
def oneChunkTransfer : FileTransfer :=
  { file_id := "f-0-0"
    file_name := "f"
    total_size := 1024
    chunks := [{ chunk_id := 0, size := 1024, checksum := "f-0-0-0" }] }

/-- A run in which target `n1`'s thread delivered the chunk and target
`n2`'s thread delivered nothing before the joins returned. -/
def laggardProgress : String → Nat := fun t => if t = "n1" then 1 else 0

/-- C1: the code violates the claim. With targets `n1`, `n2` and `n2` having
delivered no chunk within its deadline, `_execute` still ends the transfer
`Completed`: `is_complete()` reads the single shared per-chunk `status`
field, which `n1`'s thread already set, so "delivered to any target" is
conflated with "delivered to all targets". The claim (and spec §9) requires
`Failed` here, as `claimedOutcome` — stated from the claim's words —
shows. -/
theorem execute_completed_despite_unfinished_target :
    executeOutcome oneChunkTransfer ["n1", "n2"] laggardProgress =
        TransferStatus.completed
      ∧ laggardProgress "n2" = 0
      ∧ claimedOutcome oneChunkTransfer ["n1", "n2"] laggardProgress =
        TransferStatus.failed := by
  refine ⟨by decide, by decide, by decide⟩

/-! ### C2 — reservations are released exactly once on every exit path -/

/-- C2: `initiate_transfer` reserves the full `file_size` against every
selected target (first conjunct: one full copy per replica, for distinct
targets), and after `_execute` finishes — normal completion, failure, or an
exception escaping the body, the `finally:` release runs exactly once — the
ledger is pointwise back where it started (second conjunct). -/
theorem reservation_net_zero :
    (∀ (led : List (String × Int)) (targets : List String) (size : Int)
        (nid : String), targets.Nodup → nid ∈ targets →
      dictGetD (reserveTargets led targets size) nid 0 = dictGetD led nid 0 + size)
    ∧ ∀ (led : List (String × Int)) (targets : List String) (size : Int)
        (body : Except String TransferStatus) (nid : String),
      dictGetD (executeLedger (reserveTargets led targets size) targets size body)
          nid 0 =
        dictGetD led nid 0 := by
  constructor
  · intro led targets size nid hnd hmem
    rw [reserveTargets_lookup, List.count_eq_one_of_mem hnd hmem]
    ring
  · intro led targets size body nid
    cases body <;>
      · show dictGetD (releaseTargets _ _ _) _ _ = _
        rw [releaseTargets_lookup, reserveTargets_lookup]
        ring

/-! ### C4 — chunk-size policy and chunk counts -/

/-- C4: the chunk-size bands (512 KiB below 10 MiB, 2 MiB below 100 MiB,
10 MiB otherwise); the chunk count is the ceiling of size over chunk size
(stated as: the least `n` with `fs ≤ n · chunkSize`); every chunk is at most
chunk-sized and all but the last are exactly chunk-sized; and the three
concrete cases — 9 MiB → 18 × 512 KiB, 50 MiB → 25 × 2 MiB,
250 MiB → 25 × 10 MiB. -/
theorem chunking_policy :
    (∀ fs, fs < 10 * 1024 * 1024 → calcChunkSize fs = 512 * 1024)
    ∧ (∀ fs, 10 * 1024 * 1024 ≤ fs → fs < 100 * 1024 * 1024 →
        calcChunkSize fs = 2 * 1024 * 1024)
    ∧ (∀ fs, 100 * 1024 * 1024 ≤ fs → calcChunkSize fs = 10 * 1024 * 1024)
    ∧ (∀ fid fs, fs ≤ (genChunks fid fs).length * calcChunkSize fs)
    ∧ (∀ fid fs n, fs ≤ n * calcChunkSize fs → (genChunks fid fs).length ≤ n)
    ∧ (∀ fid fs, ∀ c ∈ genChunks fid fs, c.size ≤ calcChunkSize fs)
    ∧ (∀ fid fs i, i + 1 < (genChunks fid fs).length →
        ((genChunks fid fs)[i]?.map FileChunk.size) = some (calcChunkSize fs))
    ∧ (genChunks "f" (9 * 1024 * 1024)).length = 18
    ∧ (∀ c ∈ genChunks "f" (9 * 1024 * 1024), c.size = 512 * 1024)
    ∧ (genChunks "f" (50 * 1024 * 1024)).length = 25
    ∧ (∀ c ∈ genChunks "f" (50 * 1024 * 1024), c.size = 2 * 1024 * 1024)
    ∧ (genChunks "f" (250 * 1024 * 1024)).length = 25
    ∧ (∀ c ∈ genChunks "f" (250 * 1024 * 1024), c.size = 10 * 1024 * 1024) := by
  refine ⟨?_, ?_, ?_, ?_, ?_, ?_, ?_, ?_, ?_, ?_, ?_, ?_, ?_⟩
  · intro fs h
    rw [calcChunkSize, if_pos h]
  · intro fs h1 h2
    rw [calcChunkSize, if_neg (by omega), if_pos h2]
  · intro fs h
    rw [calcChunkSize, if_neg (by omega), if_neg (by omega)]
  · intro fid fs
    rw [genChunks_length]
    exact le_ceil_mul fs _ (calcChunkSize_pos fs)
  · intro fid fs n h
    rw [genChunks_length]
    exact ceil_le_of_le_mul fs _ n (calcChunkSize_pos fs) h
  · intro fid fs c hc
    simp only [genChunks, List.mem_map, List.mem_range] at hc
    obtain ⟨i, _, rfl⟩ := hc
    exact Nat.min_le_left _ _
  · intro fid fs i hi
    have hcs := calcChunkSize_pos fs
    have hlen := genChunks_length fid fs
    rw [hlen] at hi
    have hfs : ((fs + calcChunkSize fs - 1) / calcChunkSize fs - 1) *
        calcChunkSize fs < fs := by
      by_contra hle
      push_neg at hle
      have := ceil_le_of_le_mul fs (calcChunkSize fs) _ hcs hle
      omega
    have hmul : (i + 1) * calcChunkSize fs ≤
        ((fs + calcChunkSize fs - 1) / calcChunkSize fs - 1) * calcChunkSize fs :=
      Nat.mul_le_mul_right _ (by omega)
    have hfit : i * calcChunkSize fs + calcChunkSize fs ≤ fs := by
      have hexp : (i + 1) * calcChunkSize fs =
          i * calcChunkSize fs + calcChunkSize fs := by ring
      linarith
    have hrange : i < (fs + calcChunkSize fs - 1) / calcChunkSize fs := by omega
    simp only [genChunks, List.getElem?_map, List.getElem?_range hrange,
      Option.map_some]
    show some (min (calcChunkSize fs) (fs - i * calcChunkSize fs)) = _
    congr 1
    exact Nat.min_eq_left (Nat.le_sub_of_add_le
      (show calcChunkSize fs + i * calcChunkSize fs ≤ fs by linarith))
  · decide
  · decide
  · decide
  · decide
  · decide
  · decide

/-! ### C3 — capacity-aware target selection -/

theorem pairLE_total (a b : Int × Int) : (pairLE a b || pairLE b a) = true := by
  simp only [pairLE, Bool.or_eq_true, Bool.and_eq_true, decide_eq_true_eq]
  omega

theorem pairLE_trans (a b c : Int × Int) (h1 : pairLE a b = true)
    (h2 : pairLE b c = true) : pairLE a c = true := by
  simp only [pairLE, Bool.or_eq_true, Bool.and_eq_true, decide_eq_true_eq] at *
  omega

/-- The spec's placement example: three active nodes with
(available, bandwidth) = (100, 500), (100, 1000), (50, 2000), in registry
snapshot order, nothing reserved. -/
def exampleNodes : List NodeInfo :=
  [ { node_id := "n1", host := "127.0.0.1", tcp_port := 8080, udp_port := 5001,
      capacity := { cpu := 4, memory_gb := 8, storage_bytes := 100, bandwidth_bps := 500 },
      registered_at := 0, last_seen := 0 },
    { node_id := "n2", host := "127.0.0.1", tcp_port := 8080, udp_port := 5002,
      capacity := { cpu := 4, memory_gb := 8, storage_bytes := 100, bandwidth_bps := 1000 },
      registered_at := 0, last_seen := 0 },
    { node_id := "n3", host := "127.0.0.1", tcp_port := 8080, udp_port := 5003,
      capacity := { cpu := 4, memory_gb := 8, storage_bytes := 50, bandwidth_bps := 2000 },
      registered_at := 0, last_seen := 0 } ]

/-- C3: `_select_targets` keeps exactly the active nodes whose
`estimated_available` covers the file (first conjunct, a permutation, and
sixth conjunct: for positive sizes the clamped `estimated_available` filter
agrees with the claim's "storage minus reserved" reading); ranks them
descending by `(estimated_available, bandwidth)` (second conjunct) with
ties kept in snapshot order (third conjunct, stability); and returns the
ids of the top `replication` of them (fourth and fifth conjuncts). For the
spec's three-node example the selection is `n2` (100, 1000) then `n1`
(100, 500), whether the 50-byte node qualifies (file size 40) or is
excluded (file size 60). -/
theorem target_selection :
    (∀ r nodes fs, List.Perm (rankNodes r nodes fs)
        ((nodes.filter (fun n => n.active)).filter
          (fun n => fs ≤ estimatedAvailable r n)))
    ∧ (∀ r nodes fs,
        (rankNodes r nodes fs).Pairwise (fun a b => selGE r a b = true))
    ∧ (∀ r nodes fs a b,
        List.Sublist [a, b] ((nodes.filter (fun n => n.active)).filter
          (fun n => fs ≤ estimatedAvailable r n)) →
        selGE r a b = true →
        List.Sublist [a, b] (rankNodes r nodes fs))
    ∧ (∀ r nodes fs repl,
        selectTargets r nodes repl fs =
          ((rankNodes r nodes fs).take repl).map NodeInfo.node_id
        ∧ (selectTargets r nodes repl fs).length ≤ repl)
    ∧ (∀ r n fs, 0 < fs →
        ((fs ≤ estimatedAvailable r n) ↔
          fs ≤ n.capacity.storage_bytes - dictGetD r n.node_id 0))
    ∧ selectTargets [] exampleNodes 2 40 = ["n2", "n1"]
    ∧ selectTargets [] exampleNodes 2 60 = ["n2", "n1"] := by
  refine ⟨?_, ?_, ?_, ?_, ?_, ?_, ?_⟩
  · intro r nodes fs
    exact List.perm_insertionSort _ _
  · intro r nodes fs
    letI : IsTotal NodeInfo (fun a b => selGE r a b = true) :=
      ⟨fun a b => (Bool.or_eq_true _ _).mp (pairLE_total (selKey r b) (selKey r a))⟩
    letI : IsTrans NodeInfo (fun a b => selGE r a b = true) :=
      ⟨fun a b c h1 h2 => pairLE_trans (selKey r c) (selKey r b) (selKey r a) h2 h1⟩
    exact List.sorted_insertionSort _ _
  · intro r nodes fs a b h1 h2
    exact List.pair_sublist_insertionSort h2 h1
  · intro r nodes fs repl
    refine ⟨rfl, ?_⟩
    rw [selectTargets, List.length_map, List.length_take]
    exact Nat.min_le_left _ _
  · intro r n fs h
    simp only [estimatedAvailable]
    split <;> omega
  · decide
  · decide

/-! ### C5 — liveness sweep refreshes or deactivates, never deletes -/

theorem sweepStep_preserves_other (oracle : String → Int → Bool)
    (now cutoff : Int) (st : ControllerState) (item : String × Int)
    (nid : String) (h : item.1 ≠ nid) :
    dictGet? (sweepStep oracle now cutoff st item).registered nid =
        dictGet? st.registered nid
      ∧ dictGet? (sweepStep oracle now cutoff st item).last_hb nid =
        dictGet? st.last_hb nid := by
  have hne : nid ≠ item.1 := Ne.symm h
  unfold sweepStep
  repeat' split
  all_goals
    first
      | exact ⟨rfl, rfl⟩
      | exact ⟨dictGet?_dictSet_ne _ _ _ _ hne, dictGet?_dictSet_ne _ _ _ _ hne⟩
      | exact ⟨dictGet?_dictSet_ne _ _ _ _ hne, rfl⟩

/-- What one sweep iteration does to a stale, registered node. -/
theorem sweepStep_stale (oracle : String → Int → Bool) (now cutoff : Int)
    (st : ControllerState) (nid : String) (last : Int) (info : NodeInfo)
    (hst : last < cutoff) (hreg : dictGet? st.registered nid = some info) :
    sweepStep oracle now cutoff st (nid, last) =
      if pingUdp oracle info.host info.udp_port then
        { st with
          registered := dictSet st.registered nid { info with active := true }
          last_hb := dictSet st.last_hb nid now }
      else if info.active then
        { st with
          registered := dictSet st.registered nid { info with active := false } }
      else st := by
  unfold sweepStep
  dsimp only
  rw [if_pos hst, hreg]

theorem sweepFold_preserves (oracle : String → Int → Bool) (now cutoff : Int)
    (items : List (String × Int)) (st : ControllerState) (nid : String)
    (h : nid ∉ items.map Prod.fst) :
    dictGet? (items.foldl (sweepStep oracle now cutoff) st).registered nid =
        dictGet? st.registered nid
      ∧ dictGet? (items.foldl (sweepStep oracle now cutoff) st).last_hb nid =
        dictGet? st.last_hb nid := by
  induction items generalizing st with
  | nil => exact ⟨rfl, rfl⟩
  | cons item rest ih =>
    simp only [List.map_cons, List.mem_cons, not_or] at h
    have hstep := sweepStep_preserves_other oracle now cutoff st item nid
      (fun hh => h.1 hh.symm)
    have hrest := ih (sweepStep oracle now cutoff st item) h.2
    exact ⟨hrest.1.trans hstep.1, hrest.2.trans hstep.2⟩

/-- C5: in a sweep cycle, a registered node `nid` whose `_last_hb` entry is
older than the 10 s timeout is probed; if the probe succeeds its record is
set `active := true` and its liveness timestamp `_last_hb[nid]` is refreshed
to the sweep's time, and if the probe fails its record is set
`active := false` with the timestamp untouched — in both cases the record
stays in the registry. (The `Nodup` hypothesis is the dict invariant:
`_last_hb`'s snapshot lists each key once.) -/
theorem liveness_sweep (oracle : String → Int → Bool) (now : Int)
    (st : ControllerState) (nid : String) (last : Int) (info : NodeInfo)
    (hkeys : (st.last_hb.map Prod.fst).Nodup)
    (hhb : dictGet? st.last_hb nid = some last)
    (hstale : last < now - 10)
    (hreg : dictGet? st.registered nid = some info) :
    (pingUdp oracle info.host info.udp_port = true →
      dictGet? (heartbeatSweep oracle now st).registered nid =
          some { info with active := true }
        ∧ dictGet? (heartbeatSweep oracle now st).last_hb nid = some now)
    ∧ (pingUdp oracle info.host info.udp_port = false →
      dictGet? (heartbeatSweep oracle now st).registered nid =
          some { info with active := false }
        ∧ dictGet? (heartbeatSweep oracle now st).last_hb nid = some last) := by
  obtain ⟨l₁, l₂, hsplit, hl₁⟩ := dictGet?_eq_some_split st.last_hb nid last hhb
  have hl₂ : nid ∉ l₂.map Prod.fst := by
    rw [hsplit] at hkeys
    simp only [List.map_append, List.map_cons] at hkeys
    have := List.Nodup.of_append_right hkeys
    simp only [List.nodup_cons] at this
    exact this.1
  have hpre := sweepFold_preserves oracle now (now - 10) l₁ st nid hl₁
  set st₁ := l₁.foldl (sweepStep oracle now (now - 10)) st with hst₁
  have hreg₁ : dictGet? st₁.registered nid = some info := hpre.1.trans hreg
  have hfold : heartbeatSweep oracle now st =
      l₂.foldl (sweepStep oracle now (now - 10))
        (sweepStep oracle now (now - 10) st₁ (nid, last)) := by
    rw [heartbeatSweep]
    conv_lhs => rw [hsplit]
    rw [List.foldl_append, List.foldl_cons]
  have hchar := sweepStep_stale oracle now (now - 10) st₁ nid last info hstale hreg₁
  constructor
  · intro hping
    have hstep : sweepStep oracle now (now - 10) st₁ (nid, last) =
        { st₁ with
          registered := dictSet st₁.registered nid { info with active := true }
          last_hb := dictSet st₁.last_hb nid now } := by
      rw [hchar, if_pos hping]
    have hpost := sweepFold_preserves oracle now (now - 10) l₂
      (sweepStep oracle now (now - 10) st₁ (nid, last)) nid hl₂
    rw [hfold]
    refine ⟨hpost.1.trans ?_, hpost.2.trans ?_⟩
    · rw [hstep]
      exact dictGet?_dictSet_self _ _ _
    · rw [hstep]
      exact dictGet?_dictSet_self _ _ _
  · intro hping
    have hhb₁ : dictGet? st₁.last_hb nid = some last := hpre.2.trans hhb
    have hstep : sweepStep oracle now (now - 10) st₁ (nid, last) =
        { st₁ with
          registered := dictSet st₁.registered nid { info with active := false } } := by
      rw [hchar, if_neg (by simp [hping])]
      split
      · rfl
      · rename_i hact
        have hinfo : { info with active := false } = info := by
          cases info
          simp_all
        rw [hinfo, dictSet_eq_of_get st₁.registered nid info hreg₁]
    have hpost := sweepFold_preserves oracle now (now - 10) l₂
      (sweepStep oracle now (now - 10) st₁ (nid, last)) nid hl₂
    rw [hfold]
    refine ⟨hpost.1.trans ?_, hpost.2.trans ?_⟩
    · rw [hstep]
      exact dictGet?_dictSet_self _ _ _
    · rw [hstep]
      exact hhb₁

/-- An inactive node record with a live UDP responder port, stale in
`_last_hb`. -/
def staleInfo : NodeInfo :=
  { node_id := "n1", host := "127.0.0.1", tcp_port := 8080, udp_port := 7000,
    capacity := { cpu := 4, memory_gb := 8, storage_bytes := 100, bandwidth_bps := 1000 },
    registered_at := 0, last_seen := 0, active := false }

/-- A controller whose only node last checked in at time 0. -/
def staleState : ControllerState :=
  { registered := [("n1", staleInfo)], last_hb := [("n1", 0)] }

/-- C5 witness: at time 100 the sweep probes `n1` (stale since 0), the probe
succeeds, and `n1` comes back `active` with its liveness timestamp set to
100 — without leaving the registry. -/
theorem liveness_sweep_witness :
    dictGet? ((heartbeatSweep (fun _ _ => true) 100 staleState).registered) "n1" =
        some { staleInfo with active := true }
      ∧ dictGet? ((heartbeatSweep (fun _ _ => true) 100 staleState).last_hb) "n1" =
        some 100 :=
  (liveness_sweep (fun _ _ => true) 100 staleState "n1" 0 staleInfo
    (by decide) rfl (by decide) rfl).1 (by decide)

/-! ### C6 — registration is an unvalidated idempotent upsert -/

def emptyState : ControllerState := { registered := [], last_hb := [] }

/-- A REGISTER request the claim says must be rejected: empty `node_id` and
negative storage/bandwidth capacity. -/
def badRegisterMsg : ClientMsg :=
  { action := some "REGISTER", node_id := some "",
    cap_cpu := some 1, cap_memory := some 1,
    cap_storage := some (-1), cap_bandwidth := some (-1) }

/-- C6 counterexample: `_handle_register` validates nothing. Registering the
empty `node_id` with negative capacities returns `{"status": "OK"}` and
stores the record as given — the claim's "fails with a validation error
whenever node_id is the empty string or any capacity field is malformed or
negative" is false on the code. -/
theorem register_accepts_empty_id_and_negative_capacity :
    (handleRegister 8080 0 badRegisterMsg emptyState).1.status = "OK"
      ∧ ((handleRegister 8080 0 badRegisterMsg emptyState).2.registered.map
          (fun kv => (kv.1, kv.2.capacity.storage_bytes))) = [("", -1)] :=
  ⟨rfl, rfl⟩

/-- The most recent message of the sequence that registers `nid`, if any. -/
def lastRegFor (msgs : List ClientMsg) (nid : String) : Option ClientMsg :=
  match msgs with
  | [] => none
  | m :: rest =>
    match lastRegFor rest nid with
    | some m' => some m'
    | none => if m.node_id = some nid then some m else none

theorem applyRegisters_lookup (selfPort now : Int) (msgs : List ClientMsg)
    (st : ControllerState) (nid : String) :
    dictGet? (applyRegisters selfPort now msgs st).registered nid =
      match lastRegFor msgs nid with
      | some m => some (registrationRecord selfPort now m nid)
      | none => dictGet? st.registered nid := by
  induction msgs generalizing st with
  | nil => rfl
  | cons m rest ih =>
    have hstep : applyRegisters selfPort now (m :: rest) st =
        applyRegisters selfPort now rest (handleRegister selfPort now m st).2 := rfl
    rw [hstep, ih]
    cases hrest : lastRegFor rest nid with
    | some m' => simp [lastRegFor, hrest]
    | none =>
      simp only [lastRegFor, hrest]
      cases hm : m.node_id with
      | none =>
        have hsame : (handleRegister selfPort now m st).2 = st := by
          unfold handleRegister
          rw [hm]
        rw [hsame]
        simp [hm]
      | some k =>
        have hreg2 : (handleRegister selfPort now m st).2.registered =
            dictSet st.registered k (registrationRecord selfPort now m k) := by
          unfold handleRegister
          rw [hm]
        rw [hreg2]
        by_cases hk : k = nid
        · subst hk
          simp [hm, dictGet?_dictSet_self]
        · simp only [Option.some.injEq, hk, if_false]
          exact dictGet?_dictSet_ne _ _ _ _ (Ne.symm hk)

/-- C6 as amended: REGISTER succeeds for every request carrying a `node_id`
field — empty ids and negative capacities included, stored as given (the
counterexample) — and is an idempotent upsert: keys stay unique (one record
per distinct `node_id`, which is what `list_nodes`, a map over the
registry, reports), re-registering is idempotent, and after any sequence of
registrations each id holds the record of its most recent registration. -/
theorem register_upsert :
    (∀ (port now : Int) (msg : ClientMsg) (st : ControllerState) (nid : String),
      msg.node_id = some nid → (handleRegister port now msg st).1.status = "OK")
    ∧ (∀ (port now : Int) (msg : ClientMsg) (st : ControllerState),
        (st.registered.map Prod.fst).Nodup →
        ((handleRegister port now msg st).2.registered.map Prod.fst).Nodup)
    ∧ (∀ (port now : Int) (msg : ClientMsg) (st : ControllerState),
        (handleRegister port now msg ((handleRegister port now msg st).2)).2 =
          (handleRegister port now msg st).2)
    ∧ (∀ (port now : Int) (msgs : List ClientMsg) (st : ControllerState)
        (nid : String) (m : ClientMsg), lastRegFor msgs nid = some m →
        dictGet? (applyRegisters port now msgs st).registered nid =
          some (registrationRecord port now m nid)) := by
  refine ⟨?_, ?_, ?_, ?_⟩
  · intro port now msg st nid h
    unfold handleRegister
    rw [h]
  · intro port now msg st h
    unfold handleRegister
    cases hm : msg.node_id with
    | none => exact h
    | some nid => exact dictSet_keys_nodup _ _ _ h
  · intro port now msg st
    unfold handleRegister
    cases hm : msg.node_id with
    | none => rfl
    | some nid =>
      dsimp only
      rw [dictSet_dictSet_self, dictSet_dictSet_self]
  · intro port now msgs st nid m h
    rw [applyRegisters_lookup, h]

/-! ### C7 — heartbeat: unknown id rejected without any state change -/

/-- C7: a heartbeat for a `node_id` absent from the registry returns exactly
the "Node not registered" error and the entire controller state — both
maps, every record field, the counters — unchanged; a heartbeat for a
registered node returns ACK, refreshes that node's `last_seen` and
`_last_hb` entry, and touches no other key. -/
theorem heartbeat_behavior :
    (∀ (now : Int) (msg : ClientMsg) (st : ControllerState),
      dictGet? st.registered (msg.node_id.getD "") = none →
      handleHeartbeat now msg st =
        ({ status := "ERROR", message := some "Node not registered" }, st))
    ∧ (∀ (now : Int) (msg : ClientMsg) (st : ControllerState) (info : NodeInfo),
        dictGet? st.registered (msg.node_id.getD "") = some info →
        (handleHeartbeat now msg st).1 = { status := "ACK" }
        ∧ dictGet? (handleHeartbeat now msg st).2.registered (msg.node_id.getD "") =
            some { info with last_seen := now }
        ∧ dictGet? (handleHeartbeat now msg st).2.last_hb (msg.node_id.getD "") =
            some now
        ∧ ∀ k, k ≠ msg.node_id.getD "" →
            dictGet? (handleHeartbeat now msg st).2.registered k =
                dictGet? st.registered k
              ∧ dictGet? (handleHeartbeat now msg st).2.last_hb k =
                dictGet? st.last_hb k) := by
  constructor
  · intro now msg st h
    unfold handleHeartbeat
    dsimp only
    rw [h]
  · intro now msg st info h
    unfold handleHeartbeat
    dsimp only
    rw [h]
    exact ⟨rfl, dictGet?_dictSet_self _ _ _, dictGet?_dictSet_self _ _ _,
      fun k hk => ⟨dictGet?_dictSet_ne _ _ _ _ hk, dictGet?_dictSet_ne _ _ _ _ hk⟩⟩

/-! ### C8 — per-connection protocol errors -/

/-- C8 counterexample: a malformed payload is *not* reported back to the
caller. `json.loads` raises, the blanket `except Exception: pass` swallows
the error, and the connection closes with no response at all — against the
claim's "reported back to the caller as an error response". -/
theorem malformed_payload_no_response :
    (handleClient 8080 0 RawRequest.malformed emptyState).1 = none := rfl

/-- C8 as amended: an unrecognized action is answered with exactly
`{status: "ERROR", message: "Unknown action: <action>"}` (an absent action
field prints as `None`) and the connection closes; a malformed payload is
swallowed — the connection closes with *no* response; every parsed message
gets a response; and in all of these cases the handler returns normally
(the accept loop never sees the failure) leaving the state of error paths
untouched. -/
theorem client_error_handling :
    (∀ (port now : Int) (st : ControllerState) (m : ClientMsg) (a : String),
      m.action = some a →
      a ≠ "REGISTER" → a ≠ "HEARTBEAT" → a ≠ "ACTIVE_NOTIFICATION" →
      a ≠ "LIST_NODES" → a ≠ "STATS" →
      handleClient port now (RawRequest.msg m) st =
        (some { status := "ERROR",
                message := some ("Unknown action: " ++ a) }, st))
    ∧ (∀ (port now : Int) (st : ControllerState) (m : ClientMsg),
        m.action = none →
        handleClient port now (RawRequest.msg m) st =
          (some { status := "ERROR", message := some "Unknown action: None" }, st))
    ∧ (∀ (port now : Int) (st : ControllerState),
        handleClient port now RawRequest.malformed st = (none, st))
    ∧ (∀ (port now : Int) (st : ControllerState) (m : ClientMsg),
        (handleClient port now (RawRequest.msg m) st).1.isSome = true) := by
  refine ⟨?_, ?_, ?_, ?_⟩
  · intro port now st m a h h1 h2 h3 h4 h5
    simp [handleClient, h, h1, h2, h3, h4, h5, actionText]
  · intro port now st m h
    simp [handleClient, h, actionText]
  · intro port now st
    rfl
  · intro port now st m
    simp only [handleClient]
    repeat' split
    all_goals rfl

/-! ### C9 — the sweep probes while holding the registry lock -/

inductive LockEvent
  | acquire
  | release
  | probe (host : String) (port : Int)
deriving DecidableEq, Repr

/-- One sweep iteration, instrumented with the probe sends it performs: a
probe event is recorded exactly when `_ping_udp` reaches `sendto` (stale
node, still registered, positive UDP port); the state evolves by
`sweepStep`. -/
def sweepStepTraced (oracle : String → Int → Bool) (now cutoff : Int)
    (acc : ControllerState × List LockEvent) (item : String × Int) :
    ControllerState × List LockEvent :=
  let evs :=
    if item.2 < cutoff then
      match dictGet? acc.1.registered item.1 with
      | none => acc.2
      | some info =>
        if 0 < info.udp_port then acc.2 ++ [LockEvent.probe info.host info.udp_port]
        else acc.2
    else acc.2
  (sweepStep oracle now cutoff acc.1 item, evs)

/-- The lock/probe event trace of one `_heartbeat_monitor` cycle (lines
122–138): the `with self._lock:` at line 126 encloses the whole scan, so
the acquire precedes every `_ping_udp` call the loop makes (line 132) and
the release follows them all. -/
def monitorCycleTrace (oracle : String → Int → Bool) (now : Int)
    (st : ControllerState) : List LockEvent :=
  LockEvent.acquire ::
    ((st.last_hb.foldl (sweepStepTraced oracle now (now - 10)) (st, [])).2
      ++ [LockEvent.release])

/-- The number of probe sends that happen while the registry lock is held
(lock depth positive). The claim asserts this is always zero. -/
def probesWhileHeld (tr : List LockEvent) : Nat :=
  (tr.foldl
    (fun (acc : Int × Nat) e =>
      match e with
      | LockEvent.acquire => (acc.1 + 1, acc.2)
      | LockEvent.release => (acc.1 - 1, acc.2)
      | LockEvent.probe _ _ => (acc.1, if 0 < acc.1 then acc.2 + 1 else acc.2))
    ((0 : Int), (0 : Nat))).2

/-- C9: the code violates the claim. Sweeping a registry holding one stale
probe-able node produces a cycle trace whose single UDP probe happens
strictly between the lock acquire and its release — `_ping_udp` (a 1 s
network round trip) runs inside `with self._lock:`, so the probe count
under the lock is 1, not the 0 the claim requires. -/
theorem sweep_probes_while_holding_lock :
    probesWhileHeld (monitorCycleTrace (fun _ _ => false) 100 staleState) = 1 := by
  decide

/-! ### C10 — registration always stores an `active=true` record -/

/-- C10: any successful REGISTER — a re-registration of a known `node_id`
included — stores a freshly constructed `NodeInfo`, whose `active` field
takes its dataclass default `True`: the node is active in `list_nodes`
straight away, before any ACTIVE_NOTIFICATION or probe, and a node
previously flipped inactive becomes active again merely by
re-registering. -/
theorem register_stores_active_record (port now : Int) (msg : ClientMsg)
    (st : ControllerState) (nid : String) (h : msg.node_id = some nid) :
    (dictGet? (handleRegister port now msg st).2.registered nid).map
        NodeInfo.active = some true := by
  unfold handleRegister
  rw [h]
  dsimp only
  rw [dictGet?_dictSet_self]
  rfl

/-- C10 witness: `n1` sits in the registry flipped inactive; merely
re-registering it stores a record with `active := true`. -/
theorem register_reactivates_inactive_node :
    (dictGet? (handleRegister 8080 5
        { action := some "REGISTER", node_id := some "n1" }
        staleState).2.registered "n1").map NodeInfo.active = some true :=
  register_stores_active_record 8080 5
    { action := some "REGISTER", node_id := some "n1" } staleState "n1" rfl

end CloudSim
